import Mathlib

/-!
# FluxShift bridge orchestrator — verification development

Shallow embedding of the CCTP bridge orchestrator of this repository
(`src/services/cctp.service.ts`, `src/services/circleWallet.service.ts`,
`src/models/user.model.ts`, `src/config/chains.ts`) together with theorems
about its transfer state machine, fee computation, polling loops and
error handling.

Modelling conventions:
* External collaborators (the Circle signing service, the attestation
  oracle, the user/wallet store) are oracles: their responses are inputs
  to the embedded operations.
* The persistent Transfer store is a list of records threaded through
  every operation; `updateTransfer` patches the first record whose id
  matches, as both backing store implementations do.
* JavaScript truthiness on nullable strings (`if (!x)`, `x || null`,
  `x || ''`) is modelled explicitly by `strTruthy` / `jsOrNull`.
* Wall-clock fields (`createdAt`, `updatedAt`) and the RPC/explorer URL
  configuration are omitted: no verified property mentions them.
* Contract-execution requests issued to the signing service are recorded
  in an event trace, so "performs no contract call" is expressible.
-/

set_option maxRecDepth 4096

/-- Decidable equality of `Except` results, for evaluating the embedded
operations on concrete inputs. -/
instance {ε α : Type} [DecidableEq ε] [DecidableEq α] : DecidableEq (Except ε α)
  | .error a, .error b => decidable_of_iff (a = b) (by simp)
  | .ok a, .ok b => decidable_of_iff (a = b) (by simp)
  | .error _, .ok _ => isFalse (by simp)
  | .ok _, .error _ => isFalse (by simp)

namespace FluxShift

/-- Transfer lifecycle status (`TransferStatus` in `src/models/user.model.ts`). -/
inductive TransferStatus where
  | pending
  | burning
  | waiting_attestation
  | ready_to_mint
  | minting
  | completed
  | failed
deriving DecidableEq, Repr

/-- A persisted transfer record (`Transfer` in `src/models/user.model.ts`),
without the wall-clock `createdAt`/`updatedAt` fields. -/
structure Transfer where
  id : String
  userId : String
  sourceChain : String
  destinationChain : String
  amount : String
  status : TransferStatus
  burnTxHash : Option String
  mintTxHash : Option String
  message : Option String
  attestation : Option String
deriving DecidableEq, Repr

/-- Static per-chain descriptor (`ChainConfig` in `src/config/chains.ts`),
without the environment-supplied `rpcUrl` and the `explorer` URL. -/
structure ChainConfig where
  name : String
  chainId : Nat
  cctpDomain : Nat
  cctpVersion : Nat
  circleBlockchain : String
  usdc : String
  tokenMessenger : String
  messageTransmitter : String
deriving DecidableEq, Repr

/-- The chain registry (`CHAINS` in `src/config/chains.ts`). -/
def CHAINS (key : String) : Option ChainConfig :=
  if key = "ETH_SEPOLIA" then
    some ⟨"Ethereum Sepolia", 11155111, 0, 2, "ETH-SEPOLIA",
      "0x1c7D4B196Cb0C7B01d743Fbc6116a902379C7238",
      "0x8FE6B999Dc680CcFDD5Bf7EB0974218be2542DAA",
      "0xE737e5cEBEEBa77EFE34D4aa090756590b1CE275"⟩
  else if key = "ARB_SEPOLIA" then
    some ⟨"Arbitrum Sepolia", 421614, 3, 2, "ARB-SEPOLIA",
      "0x75faf114eafb1BDbe2F0316DF893fd58CE46AA4d",
      "0x8FE6B999Dc680CcFDD5Bf7EB0974218be2542DAA",
      "0xE737e5cEBEEBa77EFE34D4aa090756590b1CE275"⟩
  else if key = "BASE_SEPOLIA" then
    some ⟨"Base Sepolia", 84532, 6, 2, "BASE-SEPOLIA",
      "0x036CbD53842c5426634e7929541eC2318f3dCF7e",
      "0x8FE6B999Dc680CcFDD5Bf7EB0974218be2542DAA",
      "0xE737e5cEBEEBa77EFE34D4aa090756590b1CE275"⟩
  else if key = "OP_SEPOLIA" then
    some ⟨"Optimism Sepolia", 11155420, 2, 2, "OP-SEPOLIA",
      "0x5fd84259d66Cd46123540766Be93DFE6D43130D7",
      "0x8FE6B999Dc680CcFDD5Bf7EB0974218be2542DAA",
      "0xE737e5cEBEEBa77EFE34D4aa090756590b1CE275"⟩
  else if key = "ARC_TESTNET" then
    some ⟨"Arc Testnet", 5042002, 26, 2, "ARC-TESTNET",
      "0x3600000000000000000000000000000000000000",
      "0x8FE6B999Dc680CcFDD5Bf7EB0974218be2542DAA",
      "0xE737e5cEBEEBa77EFE34D4aa090756590b1CE275"⟩
  else none

/-- The persistent transfer store, in insertion order. -/
abbrev Store := List Transfer

/-- `userStore.getTransferById`: first record with the given id. -/
def getTransferById (store : Store) (id : String) : Option Transfer :=
  store.find? (fun t => t.id == id)

/-- A partial update passed to `userStore.updateTransfer`: `none` leaves the
field unchanged, `some v` overwrites it with `v`. -/
structure TransferPatch where
  status : Option TransferStatus
  burnTxHash : Option (Option String)
  mintTxHash : Option (Option String)
  message : Option (Option String)
  attestation : Option (Option String)
deriving DecidableEq, Repr

/-- Merge a patch into a record (the object-spread in `updateTransfer`). -/
def applyPatch (p : TransferPatch) (t : Transfer) : Transfer :=
  { t with
    status := p.status.getD t.status
    burnTxHash := p.burnTxHash.getD t.burnTxHash
    mintTxHash := p.mintTxHash.getD t.mintTxHash
    message := p.message.getD t.message
    attestation := p.attestation.getD t.attestation }

/-- `userStore.updateTransfer`: patch the first record with a matching id
(both backing stores key records by their unique id). -/
def updateStore : Store → String → TransferPatch → Store
  | [], _, _ => []
  | t :: rest, id, p =>
    if t.id == id then applyPatch p t :: rest else t :: updateStore rest id p

/-- `userStore.createTransfer`: append a fresh `pending` record. -/
def createTransfer (store : Store) (freshId userId sourceChain destinationChain amount : String) :
    Transfer × Store :=
  let t : Transfer :=
    ⟨freshId, userId, sourceChain, destinationChain, amount, .pending, none, none, none, none⟩
  (t, store ++ [t])

/-- JavaScript truthiness of a nullable string: `null`, `undefined` and the
empty string are falsy. -/
def strTruthy : Option String → Bool
  | none => false
  | some s => s != ""

/-- The JavaScript expression `x || null` on a nullable string. -/
def jsOrNull (x : Option String) : Option String :=
  if strTruthy x then x else none

/-- Parse a non-empty decimal-digit character list (`none` on empty or
non-digit input). -/
def decDigits? (chars : List Char) : Option Nat :=
  match chars with
  | [] => none
  | _ =>
    chars.foldl
      (fun acc c =>
        match acc with
        | none => none
        | some n => if c.isDigit then some (n * 10 + (c.toNat - 48)) else none)
      (some 0)

/-- Split a character list at every `'.'` (the pieces, in order). -/
def splitOnDot : List Char → List Char → List (List Char)
  | [], acc => [acc.reverse]
  | c :: cs, acc =>
    if c == '.' then acc.reverse :: splitOnDot cs [] else splitOnDot cs (c :: acc)

/-- `ethers.parseUnits(amount, 6)` on a non-negative decimal string: the
amount in 6-decimal base units, `none` when the string is malformed or has
more than 6 fractional digits (`parseUsdcAmount` in `cctp.service.ts`). -/
def parseUsdcAmount (s : String) : Option Nat :=
  match splitOnDot s.data [] with
  | [ip] => (decDigits? ip).map (· * 1000000)
  | [ip, fp] =>
    if fp.length ≤ 6 then
      match decDigits? ip, decDigits? fp with
      | some i, some f => some (i * 1000000 + f * 10 ^ (6 - fp.length))
      | _, _ => none
    else none
  | _ => none

/-- Drop trailing `'0'` characters. -/
def trimTrailingZeros (s : String) : String :=
  String.mk ((s.data.reverse.dropWhile (· == '0')).reverse)

/-- Left-pad with `'0'` to the given length. -/
def padLeftZeros (s : String) (n : Nat) : String :=
  String.mk (List.replicate (n - s.length) '0') ++ s

/-- `ethers.formatUnits(amount, 6)` (`formatUsdcAmount` in `cctp.service.ts`). -/
def formatUsdcAmount (b : Nat) : String :=
  let ip := b / 1000000
  let fp := b % 1000000
  let fracRaw := trimTrailingZeros (padLeftZeros (toString fp) 6)
  toString ip ++ "." ++ (if fracRaw.isEmpty then "0" else fracRaw)

/-- `ethers.zeroPadValue(address, 32)` (`addressToBytes32` in
`cctp.service.ts`): 32-byte left-zero-padded hex form of an address. -/
def addressToBytes32 (address : String) : String :=
  let hex : List Char :=
    match address.data with
    | '0' :: 'x' :: rest => rest
    | chars => chars
  String.mk ('0' :: 'x' :: (List.replicate (64 - hex.length) '0' ++ hex))

/-- The burn `maxFee` computed in `initiateBridge`
(`src/services/cctp.service.ts`, lines 171-175): 1% of the amount in base
units, with a fixed minimum of 1000 base units (0.001 USDC). -/
def computeMaxFee (amountUnits : Nat) : Nat :=
  let feePercent := amountUnits / 100
  let minFee := 1000
  if feePercent > minFee then feePercent else minFee

/-- A transaction record as normalised by the Circle wallet client
(`extractTransaction`): an id plus optional state and on-chain hash. -/
structure CircleTx where
  id : String
  state : Option String
  txHash : Option String
deriving DecidableEq, Repr

/-- Terminal success states of `waitForTransaction`. -/
def txStateSuccess (st : Option String) : Bool :=
  st == some "CONFIRMED" || st == some "COMPLETE"

/-- Terminal failure states of `waitForTransaction`. -/
def txStateFailure (st : Option String) : Bool :=
  st == some "FAILED" || st == some "DENIED"

/-- The polling loop of `CircleWalletService.waitForTransaction`
(`circleWallet.service.ts`, lines 225-248), with the poll responses given
by `poll` and the remaining attempt budget as fuel. -/
def waitForTransactionAux (poll : Nat → CircleTx) (attempt : Nat) :
    Nat → Except String CircleTx
  | 0 => .error "Transaction timed out"
  | fuel + 1 =>
    let tx := poll attempt
    if txStateSuccess tx.state then .ok tx
    else if txStateFailure tx.state then
      .error ("Transaction " ++ tx.state.getD "")
    else waitForTransactionAux poll (attempt + 1) fuel

/-- Default attempt budget of `waitForTransaction` (60 attempts x 3s). -/
def defaultTxMaxAttempts : Nat := 60

/-- `CircleWalletService.waitForTransaction` started at attempt 0. -/
def waitForTransaction (poll : Nat → CircleTx) (maxAttempts : Nat) :
    Except String CircleTx :=
  waitForTransactionAux poll 0 maxAttempts

/-- One message of an attestation-API response body. -/
structure AttMessage where
  attestation : String
  message : String
  eventNonce : String
  status : String
  cctpVersion : Nat
deriving DecidableEq, Repr

/-- One response of the attestation oracle: a 200 body with a message list,
a 404 ("not yet attested"), or any other transport failure. -/
inductive AttResp where
  | body (messages : List AttMessage)
  | notFound
  | failure (e : String)
deriving DecidableEq, Repr

/-- `CCTPService.checkAttestation` (`cctp.service.ts`, lines 209-226):
a non-empty 200 body is returned, an empty body or a 404 yields `null`,
any other failure is rethrown. -/
def checkAttestation (resp : AttResp) : Except String (Option (List AttMessage)) :=
  match resp with
  | .body msgs => if msgs.length > 0 then .ok (some msgs) else .ok none
  | .notFound => .ok none
  | .failure e => .error e

/-- The guard `attestation && attestation.messages[0]?.status === 'complete'`
used by `waitForAttestation` and `getBridgeStatus`. -/
def attComplete (att : Option (List AttMessage)) : Bool :=
  match att with
  | some (m :: _) => m.status == "complete"
  | _ => false

/-- The polling loop of `CCTPService.waitForAttestation` (`cctp.service.ts`,
lines 228-246). The transfer store is threaded through unchanged because the
source makes no store call; oracle responses are indexed by attempt. -/
def waitForAttestationAux (oracle : Nat → AttResp) (attempt : Nat) :
    Nat → Store → Except String (List AttMessage) × Store
  | 0, store => (.error "Attestation timed out", store)
  | fuel + 1, store =>
    match checkAttestation (oracle attempt) with
    | .error e => (.error e, store)
    | .ok att =>
      if attComplete att then (.ok (att.getD []), store)
      else waitForAttestationAux oracle (attempt + 1) fuel store

/-- Default attempt budget of `waitForAttestation` (60 attempts x 30s). -/
def defaultAttMaxAttempts : Nat := 60

/-- `CCTPService.waitForAttestation` started at attempt 0. -/
def waitForAttestation (oracle : Nat → AttResp) (maxAttempts : Nat) (store : Store) :
    Except String (List AttMessage) × Store :=
  waitForAttestationAux oracle 0 maxAttempts store

/-- `CCTPService.getUsdcBalance` (`cctp.service.ts`, lines 79-92): an unknown
chain key throws; any failure of the provider lookup or the RPC balance call
is caught and degrades to the string `"0"`. -/
def getUsdcBalance (balance : Except String Nat) (chainKey : String) :
    Except String String :=
  match CHAINS chainKey with
  | none => .error ("Unknown chain: " ++ chainKey)
  | some _ =>
    match balance with
    | .error _ => .ok "0"
    | .ok b => .ok (formatUsdcAmount b)

/-- A wallet address entry of a user record (`WalletAddress` in
`src/models/user.model.ts`), without the wall-clock field. -/
structure WalletAddr where
  blockchain : String
  address : String
  walletId : String
deriving DecidableEq, Repr

/-- The slice of a user record read by the orchestrator. -/
structure UserRec where
  walletAddresses : List WalletAddr
deriving DecidableEq, Repr

/-- Read-only user/wallet collaborator: `userStore.getWalletIdForBlockchain`
and `userStore.getUserById` as oracle functions. -/
structure Env where
  walletIdForBlockchain : String → String → Option String
  userById : String → Option UserRec

/-- `UserService.getWalletIdForChainKey` (`src/services/user.service.ts`):
resolve the chain key in the registry, then look the wallet id up by the
chain's Circle blockchain name. -/
def getWalletIdForChainKey (env : Env) (userId chainKey : String) : Option String :=
  match CHAINS chainKey with
  | none => none
  | some chain => env.walletIdForBlockchain userId chain.circleBlockchain

/-- One ABI parameter of a contract-execution request. -/
inductive AbiParam where
  | s (v : String)
  | n (v : Nat)
deriving DecidableEq, Repr

/-- An observable external effect: a contract-execution request submitted to
the Circle signing service (`CircleWalletService.executeContract`). -/
inductive Ev where
  | exec (walletId blockchain contractAddress abiFunctionSignature : String)
      (abiParameters : List AbiParam)
deriving DecidableEq, Repr

/-- Patch `{ status }`. -/
def patchStatus (s : TransferStatus) : TransferPatch :=
  ⟨some s, none, none, none, none⟩

/-- Patch `{ status: 'waiting_attestation', burnTxHash }`. -/
def patchWaiting (b : Option String) : TransferPatch :=
  ⟨some .waiting_attestation, some b, none, none, none⟩

/-- Patch `{ status: 'completed', mintTxHash, message, attestation }`. -/
def patchCompleted (h m a : String) : TransferPatch :=
  ⟨some .completed, none, some (some h), some (some m), some (some a)⟩

/-- Patch `{ status: 'ready_to_mint', message, attestation }`. -/
def patchReadyToMint (m a : String) : TransferPatch :=
  ⟨some .ready_to_mint, none, none, some (some m), some (some a)⟩

/-- Result of `initiateBridge` (`BridgeInitResult` in `cctp.service.ts`). -/
structure BridgeInitResult where
  transferId : String
  transactionId : String
  status : TransferStatus
deriving DecidableEq, Repr

/-- Responses of the signing service consumed by one `initiateBridge` run:
the approve submission and confirmation wait, then the burn submission and
confirmation wait. An `error` models the corresponding call throwing. -/
structure InitOracle where
  approveSubmit : Except String CircleTx
  approveWait : Except String CircleTx
  burnSubmit : Except String CircleTx
  burnWait : Except String CircleTx

/-- The all-zero 32-byte "any caller" sentinel of the burn call. -/
def destinationCallerSentinel : String :=
  "0x0000000000000000000000000000000000000000000000000000000000000000"

/-- `CCTPService.initiateBridge` (`cctp.service.ts`, lines 113-207).
`freshId` is the uuid assigned by `createTransfer`. Returns the result (or
thrown error), the final store, and the trace of contract executions. -/
def initiateBridge (env : Env) (o : InitOracle) (freshId : String) (store : Store)
    (userId sourceChainKey destChainKey amount : String)
    (recipientAddress : Option String) :
    Except String BridgeInitResult × Store × List Ev :=
  match CHAINS sourceChainKey, CHAINS destChainKey with
  | some sourceChain, some destChain =>
    let sourceWalletIdQ := getWalletIdForChainKey env userId sourceChainKey
    if strTruthy sourceWalletIdQ then
      let sourceWalletId := sourceWalletIdQ.getD ""
      let transfer := (createTransfer store freshId userId sourceChainKey destChainKey amount).1
      let store1 := (createTransfer store freshId userId sourceChainKey destChainKey amount).2
      let store2 := updateStore store1 transfer.id (patchStatus .burning)
      let userWallet : Option String :=
        match env.userById userId with
        | none => none
        | some u =>
          (u.walletAddresses.find? (fun wa => wa.blockchain == destChain.circleBlockchain)).map
            (fun wa => wa.address)
      let destAddress : Option String :=
        match recipientAddress with
        | some r => if r == "" then userWallet else some r
        | none => userWallet
      if strTruthy destAddress then
        match parseUsdcAmount amount with
        | none =>
          (.error "invalid decimal value",
            updateStore store2 transfer.id (patchStatus .failed), [])
        | some amountInUnits =>
          let approveEv := Ev.exec sourceWalletId sourceChain.circleBlockchain
            sourceChain.usdc "approve(address,uint256)"
            [.s sourceChain.tokenMessenger, .s (toString amountInUnits)]
          match o.approveSubmit with
          | .error e =>
            (.error e, updateStore store2 transfer.id (patchStatus .failed), [approveEv])
          | .ok _ =>
            match o.approveWait with
            | .error e =>
              (.error e, updateStore store2 transfer.id (patchStatus .failed), [approveEv])
            | .ok _ =>
              let mintRecipient := addressToBytes32 (destAddress.getD "")
              let maxFee := toString (computeMaxFee amountInUnits)
              let burnEv := Ev.exec sourceWalletId sourceChain.circleBlockchain
                sourceChain.tokenMessenger
                "depositForBurn(uint256,uint32,bytes32,address,bytes32,uint256,uint32)"
                [.s (toString amountInUnits), .n destChain.cctpDomain, .s mintRecipient,
                  .s sourceChain.usdc, .s destinationCallerSentinel, .s maxFee, .s "2000"]
              match o.burnSubmit with
              | .error e =>
                (.error e, updateStore store2 transfer.id (patchStatus .failed),
                  [approveEv, burnEv])
              | .ok burnSubmitTx =>
                match o.burnWait with
                | .error e =>
                  (.error e, updateStore store2 transfer.id (patchStatus .failed),
                    [approveEv, burnEv])
                | .ok burnTx =>
                  let burnTxHash := jsOrNull burnTx.txHash
                  (.ok ⟨transfer.id, burnSubmitTx.id, .waiting_attestation⟩,
                    updateStore store2 transfer.id (patchWaiting burnTxHash),
                    [approveEv, burnEv])
      else
        (.error "No destination address available",
          updateStore store2 transfer.id (patchStatus .failed), [])
    else
      (.error ("No wallet found for source chain: " ++ sourceChainKey), store, [])
  | _, _ => (.error "Invalid source or destination chain", store, [])

/-- Responses of the signing service consumed by one `completeBridge` run:
the mint (receiveMessage) submission and its confirmation wait. -/
structure CompleteOracle where
  mintSubmit : Except String CircleTx
  mintWait : Except String CircleTx

/-- `CCTPService.completeBridge` (`cctp.service.ts`, lines 248-314). -/
def completeBridge (env : Env) (o : CompleteOracle) (store : Store)
    (transferId userId message attestation : String) :
    Except String String × Store × List Ev :=
  match getTransferById store transferId with
  | none => (.error "Transfer not found", store, [])
  | some transfer =>
    if transfer.status = .completed ∧ strTruthy transfer.mintTxHash then
      (.ok (transfer.mintTxHash.getD ""), store, [])
    else
      match CHAINS transfer.destinationChain with
      | none => (.error "Invalid destination chain", store, [])
      | some destChain =>
        let destWalletIdQ := getWalletIdForChainKey env userId transfer.destinationChain
        if strTruthy destWalletIdQ then
          let destWalletId := destWalletIdQ.getD ""
          let store1 := updateStore store transferId (patchStatus .minting)
          let mintEv := Ev.exec destWalletId destChain.circleBlockchain
            destChain.messageTransmitter "receiveMessage(bytes,bytes)"
            [.s message, .s attestation]
          match o.mintSubmit with
          | .error e =>
            (.error e, updateStore store1 transferId (patchStatus .failed), [mintEv])
          | .ok _ =>
            match o.mintWait with
            | .error e =>
              (.error e, updateStore store1 transferId (patchStatus .failed), [mintEv])
            | .ok mintTx =>
              let mintTxHash := mintTx.txHash.getD ""
              (.ok mintTxHash,
                updateStore store1 transferId (patchCompleted mintTxHash message attestation),
                [mintEv])
        else
          (.error ("No wallet found for destination chain: " ++ transfer.destinationChain),
            store, [])

/-- The record returned by `getBridgeStatus`
(`BridgeStatusResult` in `cctp.service.ts`). -/
structure BridgeStatusResult where
  transferId : String
  status : TransferStatus
  burnTxHash : Option String
  mintTxHash : Option String
  message : Option String
  attestation : Option String
  sourceChain : String
  destinationChain : String
  amount : String
deriving DecidableEq, Repr

/-- Project a stored transfer to the status-result shape built inline twice
in `getBridgeStatus`. -/
def toBridgeStatusResult (t : Transfer) : BridgeStatusResult :=
  ⟨t.id, t.status, t.burnTxHash, t.mintTxHash, t.message, t.attestation,
    t.sourceChain, t.destinationChain, t.amount⟩

/-- `CCTPService.getBridgeStatus` (`cctp.service.ts`, lines 316-365).
`attResp` is the attestation oracle's response to the single opportunistic
`checkAttestation` query (consulted only when that query is made). -/
def getBridgeStatus (attResp : AttResp) (store : Store) (transferId : String) :
    Except String BridgeStatusResult × Store :=
  match getTransferById store transferId with
  | none => (.error "Transfer not found", store)
  | some transfer =>
    if transfer.status = .waiting_attestation ∧ strTruthy transfer.burnTxHash then
      match CHAINS transfer.sourceChain with
      | none => (.ok (toBridgeStatusResult transfer), store)
      | some _ =>
        match checkAttestation attResp with
        | .error _ =>
          -- the catch block only logs: the failure is swallowed
          (.ok (toBridgeStatusResult transfer), store)
        | .ok att =>
          match att with
          | some (m :: _) =>
            if m.status = "complete" then
              let store1 :=
                updateStore store transferId (patchReadyToMint m.message m.attestation)
              match getTransferById store1 transferId with
              | some updated => (.ok (toBridgeStatusResult updated), store1)
              | none =>
                -- the source dereferences the re-fetched record unchecked;
                -- unreachable because the record was just found and patched
                (.error "Transfer not found", store1)
            else (.ok (toBridgeStatusResult transfer), store)
          | _ => (.ok (toBridgeStatusResult transfer), store)
    else (.ok (toBridgeStatusResult transfer), store)

/-- Oracle bundle of one `executeBridgeFlow` run. -/
structure FlowOracle where
  init : InitOracle
  att : Nat → AttResp
  completion : CompleteOracle
  finalStatus : AttResp

/-- `CCTPService.executeBridgeFlow` (`cctp.service.ts`, lines 367-406):
initiate, wait for the attestation, persist `ready_to_mint`, complete,
then return the final status. Progress notifications only log. -/
def executeBridgeFlow (env : Env) (o : FlowOracle) (freshId : String) (store : Store)
    (userId sourceChainKey destChainKey amount : String) :
    Except String BridgeStatusResult × Store × List Ev :=
  match initiateBridge env o.init freshId store userId sourceChainKey destChainKey amount none with
  | (.error e, store1, evs) => (.error e, store1, evs)
  | (.ok initResult, store1, evs) =>
    match getTransferById store1 initResult.transferId with
    | none => (.error "Burn transaction hash not available", store1, evs)
    | some transfer =>
      if strTruthy transfer.burnTxHash then
        match CHAINS sourceChainKey with
        | none =>
          -- the source reads CHAINS[sourceChainKey] unchecked here; a missing
          -- entry would crash, but initiateBridge has already validated the key
          (.error "source chain not found", store1, evs)
        | some _ =>
          match waitForAttestation o.att defaultAttMaxAttempts store1 with
          | (.error e, store2) => (.error e, store2, evs)
          | (.ok msgs, store2) =>
            match msgs with
            | [] =>
              -- the source reads messages[0] unchecked; unreachable because
              -- waitForAttestation only succeeds on a complete first message
              (.error "no attestation message", store2, evs)
            | m :: _ =>
              let store3 :=
                updateStore store2 transfer.id (patchReadyToMint m.message m.attestation)
              match completeBridge env o.completion store3 transfer.id userId
                  m.message m.attestation with
              | (.error e, store4, evs2) => (.error e, store4, evs ++ evs2)
              | (.ok _, store4, evs2) =>
                match getBridgeStatus o.finalStatus store4 transfer.id with
                | (res, store5) => (res, store5, evs ++ evs2)
      else (.error "Burn transaction hash not available", store1, evs)

/-- Stores reachable from the empty store by the orchestrator's operations,
with collaborator behaviour unconstrained (arbitrary oracles) and the ids
handed to `createTransfer` fresh, as uuids are. -/
inductive Reachable : Store → Prop where
  | empty : Reachable []
  | initiate (store : Store) (env : Env) (o : InitOracle)
      (freshId userId srcKey dstKey amount : String) (recipient : Option String)
      (h : Reachable store) (hfresh : ∀ t ∈ store, t.id ≠ freshId) :
      Reachable (initiateBridge env o freshId store userId srcKey dstKey amount recipient).2.1
  | complete (store : Store) (env : Env) (o : CompleteOracle)
      (transferId userId message attestation : String) (h : Reachable store) :
      Reachable (completeBridge env o store transferId userId message attestation).2.1
  | status (store : Store) (attResp : AttResp) (transferId : String)
      (h : Reachable store) :
      Reachable (getBridgeStatus attResp store transferId).2
  | flow (store : Store) (env : Env) (o : FlowOracle)
      (freshId userId srcKey dstKey amount : String)
      (h : Reachable store) (hfresh : ∀ t ∈ store, t.id ≠ freshId) :
      Reachable (executeBridgeFlow env o freshId store userId srcKey dstKey amount).2.1

/-! ## Store lemmas -/

@[simp]
lemma applyPatch_id (p : TransferPatch) (t : Transfer) : (applyPatch p t).id = t.id := rfl

lemma getTransferById_update_self (id : String) (p : TransferPatch) (t : Transfer) :
    ∀ store : Store, getTransferById store id = some t →
    getTransferById (updateStore store id p) id = some (applyPatch p t) := by
  intro store
  induction store with
  | nil => intro h; simp [getTransferById] at h
  | cons hd tl ih =>
    intro h
    simp only [getTransferById, List.find?] at h
    cases hid : (hd.id == id) with
    | true =>
      rw [hid] at h
      simp only [Option.some.injEq] at h
      subst h
      simp [updateStore, hid, getTransferById, List.find?]
    | false =>
      rw [hid] at h
      simp only [updateStore, hid, Bool.false_eq_true, if_false]
      simp only [getTransferById, List.find?, hid]
      exact ih h

lemma mem_updateStore (id : String) (p : TransferPatch) :
    ∀ (store : Store) (x : Transfer), x ∈ updateStore store id p →
    x ∈ store ∨ ∃ t, getTransferById store id = some t ∧ x = applyPatch p t := by
  intro store
  induction store with
  | nil => intro x hx; simp [updateStore] at hx
  | cons hd tl ih =>
    intro x hx
    simp only [updateStore] at hx
    cases hid : (hd.id == id) with
    | true =>
      rw [hid] at hx
      simp only [if_true] at hx
      rcases List.mem_cons.mp hx with h1 | h1
      · right
        exact ⟨hd, by simp [getTransferById, List.find?, hid], h1⟩
      · left
        exact List.mem_cons_of_mem _ h1
    | false =>
      rw [hid] at hx
      simp only [Bool.false_eq_true, if_false] at hx
      rcases List.mem_cons.mp hx with h1 | h1
      · left; simp [h1]
      · rcases ih x h1 with h2 | ⟨t, hf, he⟩
        · left
          exact List.mem_cons_of_mem _ h2
        · right
          refine ⟨t, ?_, he⟩
          simp only [getTransferById, List.find?, hid]
          exact hf

lemma getTransferById_fresh_none :
    ∀ (store : Store) (fid : String), (∀ t ∈ store, t.id ≠ fid) →
    getTransferById store fid = none := by
  intro store
  induction store with
  | nil => intro fid _; rfl
  | cons hd tl ih =>
    intro fid h
    have h1 : hd.id ≠ fid := h hd (List.mem_cons_self hd tl)
    have h2 : (hd.id == fid) = false := by
      simp [h1]
    simp only [getTransferById, List.find?, h2]
    exact ih fid (fun t ht => h t (List.mem_cons_of_mem _ ht))

lemma getTransferById_append_fresh (t0 : Transfer) :
    ∀ store : Store, (∀ t ∈ store, t.id ≠ t0.id) →
    getTransferById (store ++ [t0]) t0.id = some t0 := by
  intro store
  induction store with
  | nil => simp [getTransferById, List.find?]
  | cons hd tl ih =>
    intro h
    have h1 : hd.id ≠ t0.id := h hd (List.mem_cons_self hd tl)
    have h2 : (hd.id == t0.id) = false := by
      simp [h1]
    simp only [List.cons_append, getTransferById, List.find?, h2]
    exact ih (fun t ht => h t (List.mem_cons_of_mem _ ht))

lemma jsOrNull_ne_some_empty (x : Option String) : jsOrNull x ≠ some "" := by
  cases x with
  | none => simp [jsOrNull, strTruthy]
  | some s =>
    by_cases h : s = ""
    · subst h; simp [jsOrNull, strTruthy]
    · simp [jsOrNull, strTruthy, h]

lemma strTruthy_iff (x : Option String) :
    strTruthy x = true ↔ x ≠ none ∧ x ≠ some "" := by
  cases x with
  | none => simp [strTruthy]
  | some s =>
    by_cases h : s = ""
    · subst h; simp [strTruthy]
    · simp [strTruthy, h]

/-! ## The reachable-state invariant -/

/-- Statuses a transfer holding a `burnTxHash` can be in. -/
def burnStatuses : List TransferStatus :=
  [.waiting_attestation, .ready_to_mint, .minting, .completed, .failed]

/-- Statuses a transfer holding a `mintTxHash` can be in. -/
def mintStatuses : List TransferStatus :=
  [.minting, .completed, .failed]

/-- Per-record invariant maintained by every orchestrator operation. -/
def TransferInv (t : Transfer) : Prop :=
  (t.burnTxHash ≠ none → t.status ∈ burnStatuses) ∧
  (t.mintTxHash ≠ none → t.status ∈ mintStatuses) ∧
  (t.status = .completed → t.mintTxHash ≠ none) ∧
  t.burnTxHash ≠ some "" ∧
  (CHAINS t.sourceChain).isSome = true ∧
  (CHAINS t.destinationChain).isSome = true

/-- Store-wide invariant: every record satisfies `TransferInv`. -/
def StoreInv (store : Store) : Prop := ∀ t ∈ store, TransferInv t

lemma storeInv_append (store : Store) (t : Transfer)
    (h : StoreInv store) (ht : TransferInv t) : StoreInv (store ++ [t]) := by
  intro x hx
  rcases List.mem_append.mp hx with h1 | h1
  · exact h x h1
  · simp only [List.mem_singleton] at h1
    subst h1
    exact ht

lemma storeInv_update_first (store : Store) (id : String) (p : TransferPatch) (t0 : Transfer)
    (h : StoreInv store) (hfind : getTransferById store id = some t0)
    (hp : TransferInv (applyPatch p t0)) : StoreInv (updateStore store id p) := by
  intro x hx
  rcases mem_updateStore id p store x hx with h1 | ⟨t, hf, he⟩
  · exact h x h1
  · rw [hfind] at hf
    simp only [Option.some.injEq] at hf
    subst hf
    subst he
    exact hp

lemma waitForAttestationAux_store_eq (oracle : Nat → AttResp) :
    ∀ (attempt fuel : Nat) (store : Store),
    (waitForAttestationAux oracle attempt fuel store).2 = store := by
  intro attempt fuel
  induction fuel generalizing attempt with
  | zero => intro store; rfl
  | succ n ih =>
    intro store
    simp only [waitForAttestationAux]
    cases checkAttestation (oracle attempt) with
    | error e => rfl
    | ok att =>
      by_cases hc : attComplete att = true
      · simp [hc]
      · simp only [hc, Bool.false_eq_true, if_false]
        exact ih (attempt + 1) store

/-- The fresh `pending` record created by `initiateBridge`. -/
def freshPending (freshId userId srcKey dstKey amount : String) : Transfer :=
  ⟨freshId, userId, srcKey, dstKey, amount, .pending, none, none, none, none⟩

lemma initiateBridge_inv (env : Env) (o : InitOracle) (freshId : String) (store : Store)
    (userId srcKey dstKey amount : String) (recipient : Option String)
    (h : StoreInv store) (hfresh : ∀ t ∈ store, t.id ≠ freshId) :
    StoreInv (initiateBridge env o freshId store userId srcKey dstKey amount recipient).2.1 := by
  cases hsrc : CHAINS srcKey with
  | none =>
    simp only [initiateBridge, hsrc]
    exact h
  | some sc =>
    cases hdst : CHAINS dstKey with
    | none =>
      simp only [initiateBridge, hsrc, hdst]
      exact h
    | some dc =>
      by_cases hw : strTruthy (getWalletIdForChainKey env userId srcKey) = true
      case neg =>
        simp only [initiateBridge, hsrc, hdst]
        rw [if_neg hw]
        exact h
      case pos =>
        have ht0 : (createTransfer store freshId userId srcKey dstKey amount).1 =
            freshPending freshId userId srcKey dstKey amount := rfl
        have hfind1 :
            getTransferById (store ++ [freshPending freshId userId srcKey dstKey amount])
              freshId = some (freshPending freshId userId srcKey dstKey amount) :=
          getTransferById_append_fresh _ store hfresh
        have hInvT0 : TransferInv (freshPending freshId userId srcKey dstKey amount) := by
          refine ⟨by simp [freshPending], by simp [freshPending], ?_, by simp [freshPending],
            ?_, ?_⟩
          · intro hc
            simp [freshPending] at hc
          · simp [freshPending, hsrc]
          · simp [freshPending, hdst]
        have hInv1 : StoreInv (store ++ [freshPending freshId userId srcKey dstKey amount]) :=
          storeInv_append _ _ h hInvT0
        have hInvBurning :
            TransferInv (applyPatch (patchStatus .burning)
              (freshPending freshId userId srcKey dstKey amount)) := by
          refine ⟨by simp [freshPending, applyPatch, patchStatus], ?_, ?_, ?_, ?_, ?_⟩
          · simp [freshPending, applyPatch, patchStatus]
          · intro hc
            simp [freshPending, applyPatch, patchStatus] at hc
          · simp [freshPending, applyPatch, patchStatus]
          · simp [freshPending, applyPatch, patchStatus, hsrc]
          · simp [freshPending, applyPatch, patchStatus, hdst]
        have hInv2 : StoreInv (updateStore
            (store ++ [freshPending freshId userId srcKey dstKey amount]) freshId
            (patchStatus .burning)) :=
          storeInv_update_first _ _ _ _ hInv1 hfind1 hInvBurning
        have hfind2 : getTransferById (updateStore
            (store ++ [freshPending freshId userId srcKey dstKey amount]) freshId
            (patchStatus .burning)) freshId =
            some (applyPatch (patchStatus .burning)
              (freshPending freshId userId srcKey dstKey amount)) :=
          getTransferById_update_self _ _ _ _ hfind1
        have hInvFail : StoreInv (updateStore (updateStore
            (store ++ [freshPending freshId userId srcKey dstKey amount]) freshId
            (patchStatus .burning)) freshId (patchStatus .failed)) := by
          refine storeInv_update_first _ _ _ _ hInv2 hfind2 ?_
          refine ⟨by simp [freshPending, applyPatch, patchStatus], ?_, ?_, ?_, ?_, ?_⟩
          · simp [freshPending, applyPatch, patchStatus]
          · intro hc
            simp [freshPending, applyPatch, patchStatus] at hc
          · simp [freshPending, applyPatch, patchStatus]
          · simp [freshPending, applyPatch, patchStatus, hsrc]
          · simp [freshPending, applyPatch, patchStatus, hdst]
        have hInvWA : ∀ b : Option String, b ≠ some "" →
            StoreInv (updateStore (updateStore
              (store ++ [freshPending freshId userId srcKey dstKey amount]) freshId
              (patchStatus .burning)) freshId (patchWaiting b)) := by
          intro b hb
          refine storeInv_update_first _ _ _ _ hInv2 hfind2 ?_
          refine ⟨?_, ?_, ?_, ?_, ?_, ?_⟩
          · intro _
            simp [freshPending, applyPatch, patchStatus, patchWaiting, burnStatuses]
          · simp [freshPending, applyPatch, patchStatus, patchWaiting]
          · intro hc
            simp [freshPending, applyPatch, patchStatus, patchWaiting] at hc
          · simpa [freshPending, applyPatch, patchStatus, patchWaiting] using hb
          · simp [freshPending, applyPatch, patchStatus, patchWaiting, hsrc]
          · simp [freshPending, applyPatch, patchStatus, patchWaiting, hdst]
        simp only [initiateBridge, hsrc, hdst]
        rw [if_pos hw]
        split
        · split
          · exact hInvFail
          · cases o.approveSubmit with
            | error e => exact hInvFail
            | ok t1 =>
              cases o.approveWait with
              | error e => exact hInvFail
              | ok t2 =>
                cases o.burnSubmit with
                | error e => exact hInvFail
                | ok t3 =>
                  cases o.burnWait with
                  | error e => exact hInvFail
                  | ok t4 => exact hInvWA _ (jsOrNull_ne_some_empty _)
        · exact hInvFail

lemma completeBridge_inv (env : Env) (o : CompleteOracle) (store : Store)
    (transferId userId message attestation : String) (h : StoreInv store) :
    StoreInv (completeBridge env o store transferId userId message attestation).2.1 := by
  cases hfind : getTransferById store transferId with
  | none =>
    simp only [completeBridge, hfind]
    exact h
  | some t =>
    have hmem : t ∈ store := List.mem_of_find?_eq_some hfind
    have hInvT : TransferInv t := h t hmem
    by_cases hdone : t.status = .completed ∧ strTruthy t.mintTxHash = true
    · simp only [completeBridge, hfind]
      rw [if_pos hdone]
      exact h
    · cases hdc : CHAINS t.destinationChain with
      | none =>
        simp only [completeBridge, hfind, hdc]
        rw [if_neg hdone]
        exact h
      | some dc =>
        by_cases hw : strTruthy (getWalletIdForChainKey env userId t.destinationChain) = true
        case neg =>
          simp only [completeBridge, hfind, hdc]
          rw [if_neg hdone, if_neg hw]
          exact h
        case pos =>
          have hInvMinting : TransferInv (applyPatch (patchStatus .minting) t) := by
            refine ⟨?_, ?_, ?_, ?_, ?_, ?_⟩
            · intro _
              simp [applyPatch, patchStatus, burnStatuses]
            · intro _
              simp [applyPatch, patchStatus, mintStatuses]
            · intro hc
              simp [applyPatch, patchStatus] at hc
            · exact hInvT.2.2.2.1
            · exact hInvT.2.2.2.2.1
            · exact hInvT.2.2.2.2.2
          have hInv1 : StoreInv (updateStore store transferId (patchStatus .minting)) :=
            storeInv_update_first _ _ _ _ h hfind hInvMinting
          have hfind1 : getTransferById (updateStore store transferId (patchStatus .minting))
              transferId = some (applyPatch (patchStatus .minting) t) :=
            getTransferById_update_self _ _ _ _ hfind
          have hInvFail2 : TransferInv (applyPatch (patchStatus .failed)
              (applyPatch (patchStatus .minting) t)) := by
            refine ⟨?_, ?_, ?_, ?_, ?_, ?_⟩
            · intro _
              simp [applyPatch, patchStatus, burnStatuses]
            · intro _
              simp [applyPatch, patchStatus, mintStatuses]
            · intro hc
              simp [applyPatch, patchStatus] at hc
            · exact hInvT.2.2.2.1
            · exact hInvT.2.2.2.2.1
            · exact hInvT.2.2.2.2.2
          cases hms : o.mintSubmit with
          | error e =>
            simp only [completeBridge, hfind, hdc, hms]
            rw [if_neg hdone, if_pos hw]
            exact storeInv_update_first _ _ _ _ hInv1 hfind1 hInvFail2
          | ok t1 =>
            cases hmw : o.mintWait with
            | error e =>
              simp only [completeBridge, hfind, hdc, hms, hmw]
              rw [if_neg hdone, if_pos hw]
              exact storeInv_update_first _ _ _ _ hInv1 hfind1 hInvFail2
            | ok mintTx =>
              simp only [completeBridge, hfind, hdc, hms, hmw]
              rw [if_neg hdone, if_pos hw]
              refine storeInv_update_first _ _ _ _ hInv1 hfind1 ?_
              refine ⟨?_, ?_, ?_, ?_, ?_, ?_⟩
              · intro _
                simp [applyPatch, patchStatus, patchCompleted, burnStatuses]
              · intro _
                simp [applyPatch, patchStatus, patchCompleted, mintStatuses]
              · intro _
                simp [applyPatch, patchStatus, patchCompleted]
              · exact hInvT.2.2.2.1
              · exact hInvT.2.2.2.2.1
              · exact hInvT.2.2.2.2.2

lemma getBridgeStatus_inv (attResp : AttResp) (store : Store) (transferId : String)
    (h : StoreInv store) : StoreInv (getBridgeStatus attResp store transferId).2 := by
  cases hfind : getTransferById store transferId with
  | none =>
    simp only [getBridgeStatus, hfind]
    exact h
  | some t =>
    have hmem : t ∈ store := List.mem_of_find?_eq_some hfind
    have hInvT : TransferInv t := h t hmem
    by_cases hwa : t.status = .waiting_attestation ∧ strTruthy t.burnTxHash = true
    case neg =>
      simp only [getBridgeStatus, hfind]
      rw [if_neg hwa]
      exact h
    case pos =>
      cases hsc : CHAINS t.sourceChain with
      | none =>
        simp only [getBridgeStatus, hfind, hsc]
        rw [if_pos hwa]
        exact h
      | some sc =>
        cases hca : checkAttestation attResp with
        | error e =>
          simp only [getBridgeStatus, hfind, hsc, hca]
          rw [if_pos hwa]
          exact h
        | ok att =>
          have hupd : ∀ m : AttMessage, StoreInv
              (updateStore store transferId (patchReadyToMint m.message m.attestation)) := by
            intro m
            have hmint : t.mintTxHash = none := by
              by_contra hne
              have hin := hInvT.2.1 hne
              rw [hwa.1] at hin
              simp [mintStatuses] at hin
            refine storeInv_update_first _ _ _ _ h hfind ?_
            refine ⟨?_, ?_, ?_, ?_, ?_, ?_⟩
            · intro _
              simp [applyPatch, patchReadyToMint, burnStatuses]
            · intro hc
              simp [applyPatch, patchReadyToMint, hmint] at hc
            · intro hc
              simp [applyPatch, patchReadyToMint] at hc
            · exact hInvT.2.2.2.1
            · exact hInvT.2.2.2.2.1
            · exact hInvT.2.2.2.2.2
          match att with
          | none =>
            simp only [getBridgeStatus, hfind, hsc, hca]
            rw [if_pos hwa]
            exact h
          | some [] =>
            simp only [getBridgeStatus, hfind, hsc, hca]
            rw [if_pos hwa]
            exact h
          | some (m :: rest) =>
            by_cases hcm : m.status = "complete"
            case neg =>
              simp only [getBridgeStatus, hfind, hsc, hca]
              rw [if_pos hwa, if_neg hcm]
              exact h
            case pos =>
              cases hfind1 : getTransferById (updateStore store transferId
                  (patchReadyToMint m.message m.attestation)) transferId with
              | none =>
                simp only [getBridgeStatus, hfind, hsc, hca, hfind1]
                rw [if_pos hwa, if_pos hcm]
                exact hupd m
              | some updated =>
                simp only [getBridgeStatus, hfind, hsc, hca, hfind1]
                rw [if_pos hwa, if_pos hcm]
                exact hupd m

lemma updateStore_append_fresh (p : TransferPatch) (t0 : Transfer) (id : String)
    (hid : t0.id = id) :
    ∀ store : Store, (∀ t ∈ store, t.id ≠ id) →
    updateStore (store ++ [t0]) id p = store ++ [applyPatch p t0] := by
  intro store
  induction store with
  | nil =>
    intro _
    simp [updateStore, hid]
  | cons hd tl ih =>
    intro hf
    have h1 : hd.id ≠ id := hf hd (List.mem_cons_self hd tl)
    have h2 : (hd.id == id) = false := by
      simp [h1]
    simp only [List.cons_append, updateStore, h2, Bool.false_eq_true, if_false]
    exact congrArg (fun l => hd :: l) (ih (fun t ht => hf t (List.mem_cons_of_mem _ ht)))

lemma waitForAttestation_store_eq (oracle : Nat → AttResp) (maxAttempts : Nat) (store : Store) :
    (waitForAttestation oracle maxAttempts store).2 = store :=
  waitForAttestationAux_store_eq oracle 0 maxAttempts store

lemma initiateBridge_ok_shape (env : Env) (o : InitOracle) (freshId : String) (store : Store)
    (userId srcKey dstKey amount : String) (recipient : Option String)
    (res : BridgeInitResult)
    (hfresh : ∀ t ∈ store, t.id ≠ freshId)
    (hok : (initiateBridge env o freshId store userId srcKey dstKey amount recipient).1 =
      .ok res) :
    res.transferId = freshId ∧
    ∃ b : Option String, b ≠ some "" ∧
      (initiateBridge env o freshId store userId srcKey dstKey amount recipient).2.1 =
      store ++ [⟨freshId, userId, srcKey, dstKey, amount, .waiting_attestation,
        b, none, none, none⟩] := by
  rcases hres : initiateBridge env o freshId store userId srcKey dstKey amount recipient with
    ⟨r, s2, evs0⟩
  rw [hres] at hok
  simp only at hok
  cases hsrc : CHAINS srcKey with
  | none =>
    rw [initiateBridge] at hres
    simp only [hsrc] at hres
    rw [Prod.mk.injEq, Prod.mk.injEq] at hres
    rw [← hres.1] at hok
    simp at hok
  | some sc =>
    cases hdst : CHAINS dstKey with
    | none =>
      rw [initiateBridge] at hres
      simp only [hsrc, hdst] at hres
      rw [Prod.mk.injEq, Prod.mk.injEq] at hres
      rw [← hres.1] at hok
      simp at hok
    | some dc =>
      by_cases hw : strTruthy (getWalletIdForChainKey env userId srcKey) = true
      case neg =>
        rw [initiateBridge] at hres
        simp only [hsrc, hdst] at hres
        rw [if_neg hw, Prod.mk.injEq, Prod.mk.injEq] at hres
        rw [← hres.1] at hok
        simp at hok
      case pos =>
        have hA : updateStore (store ++
            [(⟨freshId, userId, srcKey, dstKey, amount, .pending, none, none, none,
              none⟩ : Transfer)]) freshId (patchStatus .burning) =
            store ++ [applyPatch (patchStatus .burning)
              ⟨freshId, userId, srcKey, dstKey, amount, .pending, none, none, none, none⟩] :=
          updateStore_append_fresh _ _ freshId rfl store hfresh
        have hWA : ∀ b : Option String, updateStore (store ++
            [applyPatch (patchStatus .burning)
              (⟨freshId, userId, srcKey, dstKey, amount, .pending, none, none, none,
                none⟩ : Transfer)]) freshId (patchWaiting b) =
            store ++ [applyPatch (patchWaiting b) (applyPatch (patchStatus .burning)
              ⟨freshId, userId, srcKey, dstKey, amount, .pending, none, none, none, none⟩)] :=
          fun b => updateStore_append_fresh _ _ freshId rfl store hfresh
        rw [initiateBridge] at hres
        simp only [hsrc, hdst, createTransfer] at hres
        rw [if_pos hw] at hres
        split at hres
        case isTrue hda =>
          split at hres
          · rw [Prod.mk.injEq, Prod.mk.injEq] at hres
            rw [← hres.1] at hok
            simp at hok
          · rename_i amountInUnits hparse
            cases happrove : o.approveSubmit with
            | error e =>
              simp only [happrove] at hres
              rw [Prod.mk.injEq, Prod.mk.injEq] at hres
              rw [← hres.1] at hok
              simp at hok
            | ok ta =>
              simp only [happrove] at hres
              cases happroveW : o.approveWait with
              | error e =>
                simp only [happroveW] at hres
                rw [Prod.mk.injEq, Prod.mk.injEq] at hres
                rw [← hres.1] at hok
                simp at hok
              | ok tb =>
                simp only [happroveW] at hres
                cases hburn : o.burnSubmit with
                | error e =>
                  simp only [hburn] at hres
                  rw [Prod.mk.injEq, Prod.mk.injEq] at hres
                  rw [← hres.1] at hok
                  simp at hok
                | ok tc =>
                  simp only [hburn] at hres
                  cases hburnW : o.burnWait with
                  | error e =>
                    simp only [hburnW] at hres
                    rw [Prod.mk.injEq, Prod.mk.injEq] at hres
                    rw [← hres.1] at hok
                    simp at hok
                  | ok td =>
                    simp only [hburnW] at hres
                    rw [hA, hWA (jsOrNull td.txHash)] at hres
                    rw [Prod.mk.injEq, Prod.mk.injEq] at hres
                    rw [← hres.1] at hok
                    simp only [Except.ok.injEq] at hok
                    constructor
                    · rw [← hok]
                    · refine ⟨jsOrNull td.txHash, jsOrNull_ne_some_empty _, ?_⟩
                      show s2 = _
                      rw [← hres.2.1]
                      rfl
        case isFalse hda =>
          rw [Prod.mk.injEq, Prod.mk.injEq] at hres
          rw [← hres.1] at hok
          simp at hok

lemma executeBridgeFlow_inv (env : Env) (o : FlowOracle) (freshId : String) (store : Store)
    (userId srcKey dstKey amount : String)
    (h : StoreInv store) (hfresh : ∀ t ∈ store, t.id ≠ freshId) :
    StoreInv (executeBridgeFlow env o freshId store userId srcKey dstKey amount).2.1 := by
  rcases hx : initiateBridge env o.init freshId store userId srcKey dstKey amount none with
    ⟨r, store1, evs⟩
  have hInv1 : StoreInv store1 := by
    have hi := initiateBridge_inv env o.init freshId store userId srcKey dstKey amount none
      h hfresh
    rw [hx] at hi
    exact hi
  cases r with
  | error e =>
    simp only [executeBridgeFlow, hx]
    exact hInv1
  | ok res =>
    obtain ⟨htid, b, hb, hstore1⟩ :=
      initiateBridge_ok_shape env o.init freshId store userId srcKey dstKey amount none res
        hfresh (by rw [hx])
    rw [hx] at hstore1
    have hs1 : store1 = store ++ [⟨freshId, userId, srcKey, dstKey, amount,
        .waiting_attestation, b, none, none, none⟩] := hstore1
    have hmemWA : (⟨freshId, userId, srcKey, dstKey, amount,
        .waiting_attestation, b, none, none, none⟩ : Transfer) ∈ store1 := by
      rw [hs1]
      exact List.mem_append_right _ (List.mem_singleton.mpr rfl)
    have hInvWA : TransferInv ⟨freshId, userId, srcKey, dstKey, amount,
        .waiting_attestation, b, none, none, none⟩ := hInv1 _ hmemWA
    have hfind1 : getTransferById store1 res.transferId =
        some ⟨freshId, userId, srcKey, dstKey, amount,
          .waiting_attestation, b, none, none, none⟩ := by
      rw [hs1, htid]
      exact getTransferById_append_fresh _ store hfresh
    simp only [executeBridgeFlow, hx, hfind1]
    by_cases hbt : strTruthy b = true
    case neg =>
      rw [if_neg hbt]
      exact hInv1
    case pos =>
      rw [if_pos hbt]
      cases hscc : CHAINS srcKey with
      | none => exact hInv1
      | some sc =>
        rcases hwa : waitForAttestation o.att defaultAttMaxAttempts store1 with ⟨wres, store2⟩
        have hs2 : store2 = store1 := by
          have hfr := waitForAttestation_store_eq o.att defaultAttMaxAttempts store1
          rw [hwa] at hfr
          exact hfr
        simp only [hwa]
        cases wres with
        | error e =>
          rw [hs2]
          exact hInv1
        | ok msgs =>
          cases msgs with
          | nil =>
            rw [hs2]
            exact hInv1
          | cons m rest =>
            have hfind2 : getTransferById store2 freshId =
                some ⟨freshId, userId, srcKey, dstKey, amount,
                  .waiting_attestation, b, none, none, none⟩ := by
              rw [hs2, hs1]
              exact getTransferById_append_fresh _ store hfresh
            have hInv3 : StoreInv (updateStore store2 freshId
                (patchReadyToMint m.message m.attestation)) := by
              refine storeInv_update_first _ _ _ _ (by rw [hs2]; exact hInv1) hfind2 ?_
              refine ⟨?_, ?_, ?_, ?_, ?_, ?_⟩
              · intro _
                simp [applyPatch, patchReadyToMint, burnStatuses]
              · intro hc
                simp [applyPatch, patchReadyToMint] at hc
              · intro hc
                simp [applyPatch, patchReadyToMint] at hc
              · simpa [applyPatch, patchReadyToMint] using hb
              · exact hInvWA.2.2.2.2.1
              · exact hInvWA.2.2.2.2.2
            rcases hcb : completeBridge env o.completion
                (updateStore store2 freshId (patchReadyToMint m.message m.attestation))
                freshId userId m.message m.attestation with ⟨cres, store4, evs2⟩
            have hInv4 : StoreInv store4 := by
              have hc := completeBridge_inv env o.completion
                (updateStore store2 freshId (patchReadyToMint m.message m.attestation))
                freshId userId m.message m.attestation hInv3
              rw [hcb] at hc
              exact hc
            simp only [hcb]
            cases cres with
            | error e => exact hInv4
            | ok s =>
              rcases hgs : getBridgeStatus o.finalStatus store4 freshId with ⟨gres, store5⟩
              have hInv5 : StoreInv store5 := by
                have hg := getBridgeStatus_inv o.finalStatus store4 freshId hInv4
                rw [hgs] at hg
                exact hg
              simp only [hgs]
              exact hInv5

lemma reachable_inv (store : Store) (h : Reachable store) : StoreInv store := by
  induction h with
  | empty =>
    intro t ht
    simp at ht
  | initiate store env o freshId userId srcKey dstKey amount recipient h hfresh ih =>
    exact initiateBridge_inv env o freshId store userId srcKey dstKey amount recipient ih hfresh
  | complete store env o transferId userId message attestation h ih =>
    exact completeBridge_inv env o store transferId userId message attestation ih
  | status store attResp transferId h ih =>
    exact getBridgeStatus_inv attResp store transferId ih
  | flow store env o freshId userId srcKey dstKey amount h hfresh ih =>
    exact executeBridgeFlow_inv env o freshId store userId srcKey dstKey amount ih hfresh

/-- The lookup-and-head of the oracle response used by the orchestrator's
attestation guard: the first message when `checkAttestation` would succeed
with a non-empty list. -/
def firstAttMessage (r : AttResp) : Option AttMessage :=
  match checkAttestation r with
  | .ok (some (m :: _)) => some m
  | _ => none

/-- Whether a `checkAttestation` response would pass the orchestrator's
"first message complete" guard. -/
def checkAttestationComplete (r : AttResp) : Bool :=
  match checkAttestation r with
  | .ok (some (m :: _)) => m.status == "complete"
  | _ => false

lemma txStateFailure_not_success (st : Option String) (h : txStateFailure st = true) :
    txStateSuccess st = false := by
  simp only [txStateFailure, Bool.or_eq_true, beq_iff_eq] at h
  rcases h with h | h <;> subst h <;> rfl

lemma waitForTransactionAux_spec (poll : Nat → CircleTx) :
    ∀ (fuel attempt : Nat),
    (∀ k, k < fuel → txStateSuccess (poll (attempt + k)).state = true →
      (∀ j, j < k → txStateSuccess (poll (attempt + j)).state = false ∧
        txStateFailure (poll (attempt + j)).state = false) →
      waitForTransactionAux poll attempt fuel = .ok (poll (attempt + k))) ∧
    (∀ k, k < fuel → txStateFailure (poll (attempt + k)).state = true →
      (∀ j, j < k → txStateSuccess (poll (attempt + j)).state = false ∧
        txStateFailure (poll (attempt + j)).state = false) →
      waitForTransactionAux poll attempt fuel =
        .error ("Transaction " ++ (poll (attempt + k)).state.getD "")) ∧
    ((∀ j, j < fuel → txStateSuccess (poll (attempt + j)).state = false ∧
        txStateFailure (poll (attempt + j)).state = false) →
      waitForTransactionAux poll attempt fuel = .error "Transaction timed out") := by
  intro fuel
  induction fuel with
  | zero =>
    intro attempt
    refine ⟨?_, ?_, ?_⟩
    · intro k hk
      exact absurd hk (Nat.not_lt_zero k)
    · intro k hk
      exact absurd hk (Nat.not_lt_zero k)
    · intro _
      rfl
  | succ n ih =>
    intro attempt
    refine ⟨?_, ?_, ?_⟩
    · intro k hk hsucc hprev
      cases k with
      | zero =>
        simp only [Nat.add_zero] at hsucc
        simp only [waitForTransactionAux, hsucc, if_true, Nat.add_zero]
      | succ k0 =>
        have h0 := hprev 0 (Nat.succ_pos k0)
        simp only [Nat.add_zero] at h0
        simp only [waitForTransactionAux, h0.1, h0.2, Bool.false_eq_true, if_false]
        have heq : attempt + (k0 + 1) = attempt + 1 + k0 := by omega
        rw [heq] at hsucc ⊢
        refine (ih (attempt + 1)).1 k0 (by omega) hsucc ?_
        intro j hj
        have hpj := hprev (j + 1) (by omega)
        have heqj : attempt + (j + 1) = attempt + 1 + j := by omega
        rw [heqj] at hpj
        exact hpj
    · intro k hk hfail hprev
      cases k with
      | zero =>
        simp only [Nat.add_zero] at hfail
        have hns := txStateFailure_not_success _ hfail
        simp only [waitForTransactionAux, hns, hfail, Bool.false_eq_true, if_false, if_true,
          Nat.add_zero]
      | succ k0 =>
        have h0 := hprev 0 (Nat.succ_pos k0)
        simp only [Nat.add_zero] at h0
        simp only [waitForTransactionAux, h0.1, h0.2, Bool.false_eq_true, if_false]
        have heq : attempt + (k0 + 1) = attempt + 1 + k0 := by omega
        rw [heq] at hfail ⊢
        refine (ih (attempt + 1)).2.1 k0 (by omega) hfail ?_
        intro j hj
        have hpj := hprev (j + 1) (by omega)
        have heqj : attempt + (j + 1) = attempt + 1 + j := by omega
        rw [heqj] at hpj
        exact hpj
    · intro hall
      have h0 := hall 0 (Nat.succ_pos n)
      simp only [Nat.add_zero] at h0
      simp only [waitForTransactionAux, h0.1, h0.2, Bool.false_eq_true, if_false]
      refine (ih (attempt + 1)).2.2 ?_
      intro j hj
      have hpj := hall (j + 1) (by omega)
      have heqj : attempt + (j + 1) = attempt + 1 + j := by omega
      rw [heqj] at hpj
      exact hpj

/-! ## Concrete fixtures for counterexamples and witnesses -/

/-- A user/wallet environment with a wallet on every chain and one stored
destination address on Arbitrum Sepolia. -/
def envA : Env :=
  ⟨fun _ _ => some "w1",
   fun _ => some ⟨[⟨"ARB-SEPOLIA", "0xBBBBBBBBBBBBBBBBBBBBBBBBBBBBBBBBBBBBBBBB", "w2"⟩]⟩⟩

/-- Signing-service responses for a fully successful burn leg. -/
def initOracleOk : InitOracle :=
  ⟨.ok ⟨"txa", some "COMPLETE", none⟩,
   .ok ⟨"txa", some "COMPLETE", some "0xaaa"⟩,
   .ok ⟨"txb", some "COMPLETE", none⟩,
   .ok ⟨"txb", some "CONFIRMED", some "0xburn"⟩⟩

/-- Signing-service responses for a burn leg whose confirmed transaction
carries no on-chain hash. -/
def initOracleNoHash : InitOracle :=
  ⟨.ok ⟨"txa", some "COMPLETE", none⟩,
   .ok ⟨"txa", some "COMPLETE", some "0xaaa"⟩,
   .ok ⟨"txb", some "COMPLETE", none⟩,
   .ok ⟨"txb", some "CONFIRMED", none⟩⟩

/-! ## Claims -/

/-- Claim C5: for every amount, the burn fee is
`max(floor(amountUnits / 100), minimumFeeUnits)` with `minimumFeeUnits = 1000`;
in particular 100,000,000 base units yield fee 1,000,000 and 500 base units
yield fee 1,000. -/
theorem c5_burn_fee_formula :
    (∀ amountUnits : Nat, computeMaxFee amountUnits = max (amountUnits / 100) 1000) ∧
    computeMaxFee 100000000 = 1000000 ∧ computeMaxFee 500 = 1000 := by
  refine ⟨?_, by decide, by decide⟩
  intro a
  simp only [computeMaxFee]
  by_cases hgt : a / 100 > 1000
  · rw [if_pos hgt, Nat.max_eq_left (Nat.le_of_lt hgt)]
  · rw [if_neg hgt, Nat.max_eq_right (Nat.not_lt.mp hgt)]

/-- Claim C2 (counterexample): the amount string "0.0005" (500 base units) is
accepted by `initiateBridge` — the run succeeds and passes maxFee "1000" to
the burn call — yet the fee 1000 is not strictly less than 500. -/
theorem c2_counterexample :
    parseUsdcAmount "0.0005" = some 500 ∧
    (initiateBridge envA initOracleOk "t1" [] "u1" "ETH_SEPOLIA" "ARB_SEPOLIA" "0.0005"
      none).1 = .ok ⟨"t1", "txb", .waiting_attestation⟩ ∧
    (initiateBridge envA initOracleOk "t1" [] "u1" "ETH_SEPOLIA" "ARB_SEPOLIA" "0.0005"
      none).2.2 =
      [Ev.exec "w1" "ETH-SEPOLIA" "0x1c7D4B196Cb0C7B01d743Fbc6116a902379C7238"
        "approve(address,uint256)"
        [.s "0x8FE6B999Dc680CcFDD5Bf7EB0974218be2542DAA", .s "500"],
       Ev.exec "w1" "ETH-SEPOLIA" "0x8FE6B999Dc680CcFDD5Bf7EB0974218be2542DAA"
        "depositForBurn(uint256,uint32,bytes32,address,bytes32,uint256,uint32)"
        [.s "500", .n 3,
         .s "0x000000000000000000000000BBBBBBBBBBBBBBBBBBBBBBBBBBBBBBBBBBBBBBBB",
         .s "0x1c7D4B196Cb0C7B01d743Fbc6116a902379C7238",
         .s destinationCallerSentinel, .s "1000", .s "2000"]] ∧
    ¬(computeMaxFee 500 < 500) := by
  exact ⟨by decide, by decide, by decide, by decide⟩

/-- Claim C2 (amended): the fee passed to the burn call is strictly less than
the amount in base units exactly when the amount exceeds the 1000-base-unit
minimum fee; for amounts of at most 0.001 USDC the minimum-fee floor makes
the fee greater than or equal to the amount. -/
theorem c2_amended_fee_lt_amount_iff :
    ∀ amountUnits : Nat, (computeMaxFee amountUnits < amountUnits ↔ 1000 < amountUnits) := by
  intro a
  simp only [computeMaxFee]
  by_cases hgt : a / 100 > 1000
  · rw [if_pos hgt]
    have hle : a / 100 ≤ a := Nat.div_le_self a 100
    constructor
    · intro _
      omega
    · intro _
      exact Nat.div_lt_self (by omega) (by omega)
  · rw [if_neg hgt]

/-- Claim C9: a 404 from the attestation oracle and an empty message list both
yield `null` without raising; a non-empty body is returned; any other
transport failure propagates as an error. -/
theorem c9_checkAttestation_spec :
    ∀ (e : String) (msgs : List AttMessage),
    checkAttestation AttResp.notFound = .ok none ∧
    checkAttestation (AttResp.body []) = .ok none ∧
    (msgs ≠ [] → checkAttestation (AttResp.body msgs) = .ok (some msgs)) ∧
    checkAttestation (AttResp.failure e) = .error e := by
  intro e msgs
  refine ⟨rfl, by decide, ?_, rfl⟩
  intro hne
  cases msgs with
  | nil => exact absurd rfl hne
  | cons m rest => simp [checkAttestation]

/-- An attestation message marked complete. -/
def attMsgComplete : AttMessage := ⟨"0xatt", "0xmsg", "1", "complete", 2⟩

/-- Witness for C9 at a concrete non-empty body. -/
theorem c9_witness :
    ([attMsgComplete] : List AttMessage) ≠ [] ∧
    checkAttestation (AttResp.body [attMsgComplete]) = .ok (some [attMsgComplete]) :=
  ⟨by decide, (c9_checkAttestation_spec "e" [attMsgComplete]).2.2.1 (by decide)⟩

/-- Claim C7: for every sequence of polled transaction states,
`waitForTransaction` returns the transaction at the first attempt whose state
is CONFIRMED or COMPLETE, raises immediately at the first attempt whose state
is FAILED or DENIED, and raises the timeout error when no terminal state
appears within the attempt budget. -/
theorem c7_waitForTransaction_spec :
    ∀ (poll : Nat → CircleTx) (maxAttempts : Nat),
    (∀ k, k < maxAttempts → txStateSuccess (poll k).state = true →
      (∀ j, j < k → txStateSuccess (poll j).state = false ∧
        txStateFailure (poll j).state = false) →
      waitForTransaction poll maxAttempts = .ok (poll k)) ∧
    (∀ k, k < maxAttempts → txStateFailure (poll k).state = true →
      (∀ j, j < k → txStateSuccess (poll j).state = false ∧
        txStateFailure (poll j).state = false) →
      waitForTransaction poll maxAttempts =
        .error ("Transaction " ++ (poll k).state.getD "")) ∧
    ((∀ j, j < maxAttempts → txStateSuccess (poll j).state = false ∧
        txStateFailure (poll j).state = false) →
      waitForTransaction poll maxAttempts = .error "Transaction timed out") := by
  intro poll n
  have haux := waitForTransactionAux_spec poll n 0
  simp only [Nat.zero_add] at haux
  exact haux

/-- A poll sequence that is pending twice and then confirmed. -/
def c7poll : Nat → CircleTx := fun i =>
  if i = 2 then ⟨"tx1", some "CONFIRMED", some "0xc"⟩ else ⟨"tx1", some "PENDING", none⟩

/-- Witness for C7 at the default 60-attempt budget. -/
theorem c7_witness :
    waitForTransaction c7poll defaultTxMaxAttempts =
      .ok ⟨"tx1", some "CONFIRMED", some "0xc"⟩ := by
  have h := (c7_waitForTransaction_spec c7poll defaultTxMaxAttempts).1 2 (by decide)
    (by decide) (by decide)
  exact h.trans (by decide)

/-- Claim C8: `waitForAttestation` never writes to the transfer store — for
every oracle behaviour, attempt budget and store, the store after the call is
the store before, and every stored record (in particular a
`waiting_attestation` one) is unchanged. -/
theorem c8_waitForAttestation_frame :
    ∀ (oracle : Nat → AttResp) (maxAttempts : Nat) (store : Store),
    (waitForAttestation oracle maxAttempts store).2 = store ∧
    (∀ tid t, getTransferById store tid = some t →
      getTransferById (waitForAttestation oracle maxAttempts store).2 tid = some t) := by
  intro oracle n store
  have hfr := waitForAttestation_store_eq oracle n store
  refine ⟨hfr, ?_⟩
  intro tid t ht
  rw [hfr]
  exact ht

/-- A transfer awaiting its attestation. -/
def c8transfer : Transfer :=
  ⟨"t1", "u1", "ETH_SEPOLIA", "ARB_SEPOLIA", "1.0",
    .waiting_attestation, some "0xburn", none, none, none⟩

/-- Witness for C8: a full 60-attempt timeout (oracle always answers 404)
leaves the `waiting_attestation` record untouched. -/
theorem c8_witness :
    (waitForAttestation (fun _ => AttResp.notFound) defaultAttMaxAttempts [c8transfer]).2 =
      [c8transfer] ∧
    getTransferById
      (waitForAttestation (fun _ => AttResp.notFound) defaultAttMaxAttempts [c8transfer]).2
      "t1" = some c8transfer :=
  ⟨(c8_waitForAttestation_frame (fun _ => AttResp.notFound) defaultAttMaxAttempts
      [c8transfer]).1,
   (c8_waitForAttestation_frame (fun _ => AttResp.notFound) defaultAttMaxAttempts
      [c8transfer]).2 "t1" c8transfer (by decide)⟩

/-- Signing-service responses for a successful mint leg (hash "0xdead"). -/
def completeOracleOk : CompleteOracle :=
  ⟨.ok ⟨"txm", some "COMPLETE", none⟩,
   .ok ⟨"txm", some "COMPLETE", some "0xdead"⟩⟩

/-- A stored transfer marked completed whose mintTxHash is the non-null but
empty string (reachable when the confirmed mint transaction carried no
hash: `mintTx.transaction.txHash || ''`). -/
def c1transferEmptyMint : Transfer :=
  ⟨"t1", "u1", "ETH_SEPOLIA", "ARB_SEPOLIA", "1.0",
    .completed, some "0xburn", some "", none, none⟩

/-- Claim C1 (counterexample): on a completed transfer whose stored
mintTxHash is the non-null empty string, `completeBridge` does not return the
cached value — it re-executes the mint (non-empty contract trace), updates
the store, and returns a fresh hash. -/
theorem c1_counterexample :
    c1transferEmptyMint.status = .completed ∧
    c1transferEmptyMint.mintTxHash ≠ none ∧
    getTransferById [c1transferEmptyMint] "t1" = some c1transferEmptyMint ∧
    (completeBridge envA completeOracleOk [c1transferEmptyMint] "t1" "u1" "0xmsg" "0xatt").1 =
      .ok "0xdead" ∧
    (completeBridge envA completeOracleOk [c1transferEmptyMint] "t1" "u1" "0xmsg"
      "0xatt").2.1 ≠ [c1transferEmptyMint] ∧
    (completeBridge envA completeOracleOk [c1transferEmptyMint] "t1" "u1" "0xmsg"
      "0xatt").2.2 ≠ [] := by
  exact ⟨by decide, by decide, by decide, by decide, by decide, by decide⟩

/-- Claim C1 (amended): for every stored transfer whose status is completed
and whose mintTxHash is non-null and non-empty (JavaScript truthiness),
`completeBridge` returns that cached hash with no store update and no
contract execution, and any repeated invocation (any oracle behaviour)
returns the identical hash. -/
theorem c1_amended_completed_mint_cached
    (env : Env) (o : CompleteOracle) (store : Store)
    (transferId userId message attestation : String) (t : Transfer) (h0 : String)
    (hfind : getTransferById store transferId = some t)
    (hst : t.status = .completed) (hmint : t.mintTxHash = some h0) (hne : h0 ≠ "") :
    completeBridge env o store transferId userId message attestation = (.ok h0, store, []) ∧
    (∀ oo : CompleteOracle,
      (completeBridge env oo store transferId userId message attestation).1 = .ok h0) := by
  have hcond : t.status = .completed ∧ strTruthy t.mintTxHash = true := by
    refine ⟨hst, ?_⟩
    rw [hmint]
    simp [strTruthy, hne]
  have hmain : ∀ oo : CompleteOracle,
      completeBridge env oo store transferId userId message attestation =
        (.ok h0, store, []) := by
    intro oo
    simp only [completeBridge, hfind]
    rw [if_pos hcond, hmint]
    rfl
  exact ⟨hmain o, fun oo => by rw [hmain oo]⟩

/-- A completed transfer with a cached non-empty mint hash. -/
def c1transferDone : Transfer :=
  ⟨"t1", "u1", "ETH_SEPOLIA", "ARB_SEPOLIA", "1.0",
    .completed, some "0xburn", some "0xmint", some "m", some "a"⟩

/-- Witness for the amended C1: the cached hash is returned twice, without
store update or contract call, even under a failing oracle. -/
theorem c1_witness :
    completeBridge envA completeOracleOk [c1transferDone] "t1" "u1" "m2" "a2" =
      (.ok "0xmint", [c1transferDone], []) ∧
    (completeBridge envA ⟨.error "boom", .error "boom"⟩ [c1transferDone] "t1" "u1" "m2"
      "a2").1 = .ok "0xmint" := by
  have h := c1_amended_completed_mint_cached envA completeOracleOk [c1transferDone] "t1" "u1"
    "m2" "a2" c1transferDone "0xmint" (by decide) (by decide) (by decide) (by decide)
  exact ⟨h.1, h.2 ⟨.error "boom", .error "boom"⟩⟩

/-- The record left by a burn leg whose confirmed transaction had no hash:
`waiting_attestation` with a null burnTxHash. -/
def tWAnoHash : Transfer :=
  ⟨"t1", "u1", "ETH_SEPOLIA", "ARB_SEPOLIA", "1.0",
    .waiting_attestation, none, none, none, none⟩

/-- Claim C3 (counterexample): a store holding a `waiting_attestation`
transfer with a null burnTxHash is reachable (the burn confirmation returned
no txHash), so "burnTxHash non-null iff status ∈ {waiting_attestation, ...}"
fails in the right-to-left direction. -/
theorem c3_counterexample :
    Reachable [tWAnoHash] ∧
    tWAnoHash.status ∈ burnStatuses ∧
    tWAnoHash.burnTxHash = none ∧
    ¬((tWAnoHash.burnTxHash ≠ none) ↔ tWAnoHash.status ∈ burnStatuses) := by
  refine ⟨?_, by decide, by decide, by decide⟩
  have hr := Reachable.initiate [] envA initOracleNoHash "t1" "u1" "ETH_SEPOLIA" "ARB_SEPOLIA"
    "1.0" none Reachable.empty (by intro t ht; simp at ht)
  have he : (initiateBridge envA initOracleNoHash "t1" [] "u1" "ETH_SEPOLIA" "ARB_SEPOLIA"
      "1.0" none).2.1 = [tWAnoHash] := by decide
  rw [he] at hr
  exact hr

/-- Claim C3 (amended): over every reachable store, a non-null burnTxHash
implies status ∈ {waiting_attestation, ready_to_mint, minting, completed,
failed}; a non-null mintTxHash implies status ∈ {minting, completed, failed};
and status completed implies mintTxHash is non-null. -/
theorem c3_amended_hash_status_invariant :
    ∀ store : Store, Reachable store → ∀ t ∈ store,
      (t.burnTxHash ≠ none → t.status ∈ burnStatuses) ∧
      (t.mintTxHash ≠ none → t.status ∈ mintStatuses) ∧
      (t.status = .completed → t.mintTxHash ≠ none) := by
  intro store h t ht
  have hInv := reachable_inv store h t ht
  exact ⟨hInv.1, hInv.2.1, hInv.2.2.1⟩

/-- The record left by a fully successful burn leg. -/
def tWAburn : Transfer :=
  ⟨"t1", "u1", "ETH_SEPOLIA", "ARB_SEPOLIA", "1.0",
    .waiting_attestation, some "0xburn", none, none, none⟩

/-- Witness for the amended C3 at a concrete reachable store. -/
theorem c3_witness :
    Reachable [tWAburn] ∧
    ((tWAburn.burnTxHash ≠ none → tWAburn.status ∈ burnStatuses) ∧
     (tWAburn.mintTxHash ≠ none → tWAburn.status ∈ mintStatuses) ∧
     (tWAburn.status = .completed → tWAburn.mintTxHash ≠ none)) := by
  have hr : Reachable [tWAburn] := by
    have hr0 := Reachable.initiate [] envA initOracleOk "t1" "u1" "ETH_SEPOLIA" "ARB_SEPOLIA"
      "1.0" none Reachable.empty (by intro t ht; simp at ht)
    have he : (initiateBridge envA initOracleOk "t1" [] "u1" "ETH_SEPOLIA" "ARB_SEPOLIA"
        "1.0" none).2.1 = [tWAburn] := by decide
    rw [he] at hr0
    exact hr0
  exact ⟨hr, c3_amended_hash_status_invariant [tWAburn] hr tWAburn (by simp)⟩

/-- A transfer awaiting attestation, for the C4 analysis. -/
def c4transfer : Transfer :=
  ⟨"t1", "u1", "ETH_SEPOLIA", "ARB_SEPOLIA", "1.0",
    .waiting_attestation, some "0xburn", none, none, none⟩

/-- Claim C4 (counterexample): an attestation-check failure inside
`getBridgeStatus` does not propagate — the call returns the stored record
successfully and leaves the store unchanged. -/
theorem c4_counterexample :
    getBridgeStatus (AttResp.failure "attestation check failed") [c4transfer] "t1" =
      (.ok (toBridgeStatusResult c4transfer), [c4transfer]) ∧
    (getBridgeStatus (AttResp.failure "attestation check failed") [c4transfer] "t1").1 ≠
      .error "attestation check failed" := by
  exact ⟨by decide, by decide⟩

/-- Claim C4 (amended): collaborator errors either propagate or hit one of
two degradation points: the opportunistic attestation check inside
`getBridgeStatus` is swallowed (the stored record is returned unchanged), and
a balance-lookup failure degrades to the string "0". -/
theorem c4_amended_error_degradation :
    (∀ (e : String) (store : Store) (tid : String) (t : Transfer) (sc : ChainConfig),
      getTransferById store tid = some t → t.status = .waiting_attestation →
      strTruthy t.burnTxHash = true → CHAINS t.sourceChain = some sc →
      getBridgeStatus (AttResp.failure e) store tid =
        (.ok (toBridgeStatusResult t), store)) ∧
    (∀ (e : String) (chainKey : String) (c : ChainConfig), CHAINS chainKey = some c →
      getUsdcBalance (.error e) chainKey = .ok "0") := by
  constructor
  · intro e store tid t sc hfind hst hbt hsc
    simp only [getBridgeStatus, hfind, hsc]
    rw [if_pos ⟨hst, hbt⟩]
    rfl
  · intro e chainKey c hsc
    simp only [getUsdcBalance, hsc]

/-- The Ethereum Sepolia registry entry, as a literal. -/
def ethSepoliaChain : ChainConfig :=
  ⟨"Ethereum Sepolia", 11155111, 0, 2, "ETH-SEPOLIA",
    "0x1c7D4B196Cb0C7B01d743Fbc6116a902379C7238",
    "0x8FE6B999Dc680CcFDD5Bf7EB0974218be2542DAA",
    "0xE737e5cEBEEBa77EFE34D4aa090756590b1CE275"⟩

/-- Witness for the amended C4 at concrete inputs. -/
theorem c4_witness :
    getBridgeStatus (AttResp.failure "boom") [c4transfer] "t1" =
      (.ok (toBridgeStatusResult c4transfer), [c4transfer]) ∧
    getUsdcBalance (.error "rpc down") "ETH_SEPOLIA" = .ok "0" := by
  constructor
  · exact c4_amended_error_degradation.1 "boom" [c4transfer] "t1" c4transfer ethSepoliaChain
      (by decide) (by decide) (by decide) (by decide)
  · exact c4_amended_error_degradation.2 "rpc down" "ETH_SEPOLIA" ethSepoliaChain (by decide)

/-- Claim C10: `initiateBridge` validates the chain keys and the source
wallet before creating any record: both failure modes return with the store
unchanged (no audit record, not even a failed one), while once validation
passes a record with the fresh id always exists afterwards. -/
theorem c10_initiateBridge_prevalidation :
    ∀ (env : Env) (o : InitOracle) (freshId : String) (store : Store)
      (userId srcKey dstKey amount : String) (recipient : Option String),
    (∀ t ∈ store, t.id ≠ freshId) →
    ((CHAINS srcKey = none ∨ CHAINS dstKey = none) →
      initiateBridge env o freshId store userId srcKey dstKey amount recipient =
        (.error "Invalid source or destination chain", store, [])) ∧
    (∀ sc dc, CHAINS srcKey = some sc → CHAINS dstKey = some dc →
      strTruthy (getWalletIdForChainKey env userId srcKey) = false →
      initiateBridge env o freshId store userId srcKey dstKey amount recipient =
        (.error ("No wallet found for source chain: " ++ srcKey), store, [])) ∧
    (∀ sc dc, CHAINS srcKey = some sc → CHAINS dstKey = some dc →
      strTruthy (getWalletIdForChainKey env userId srcKey) = true →
      (getTransferById (initiateBridge env o freshId store userId srcKey dstKey amount
        recipient).2.1 freshId).isSome = true) := by
  intro env o freshId store userId srcKey dstKey amount recipient hfresh
  refine ⟨?_, ?_, ?_⟩
  · intro hor
    rcases hor with hsrc | hdst
    · simp [initiateBridge, hsrc]
    · cases hsrc : CHAINS srcKey with
      | none => simp [initiateBridge, hsrc]
      | some sc => simp [initiateBridge, hsrc, hdst]
  · intro sc dc hsrc hdst hw
    simp only [initiateBridge, hsrc, hdst]
    rw [if_neg (by simp [hw])]
  · intro sc dc hsrc hdst hw
    have hfind0 : getTransferById (store ++
        [(⟨freshId, userId, srcKey, dstKey, amount, .pending, none, none, none,
          none⟩ : Transfer)]) freshId =
        some ⟨freshId, userId, srcKey, dstKey, amount, .pending, none, none, none, none⟩ :=
      getTransferById_append_fresh _ store hfresh
    have hsome : ∀ p1 p2 : TransferPatch,
        (getTransferById (updateStore (updateStore (store ++
          [(⟨freshId, userId, srcKey, dstKey, amount, .pending, none, none, none,
            none⟩ : Transfer)]) freshId p1) freshId p2) freshId).isSome = true := by
      intro p1 p2
      rw [getTransferById_update_self _ _ _ _ (getTransferById_update_self _ _ _ _ hfind0)]
      rfl
    simp only [initiateBridge, hsrc, hdst, createTransfer]
    rw [if_pos hw]
    split
    · split
      · exact hsome _ _
      · split
        · exact hsome _ _
        · split
          · exact hsome _ _
          · split
            · exact hsome _ _
            · split
              · exact hsome _ _
              · exact hsome _ _
    · exact hsome _ _

/-- A user/wallet environment with no wallets at all. -/
def envNoWallet : Env := ⟨fun _ _ => none, fun _ => none⟩

/-- The Arbitrum Sepolia registry entry, as a literal. -/
def arbSepoliaChain : ChainConfig :=
  ⟨"Arbitrum Sepolia", 421614, 3, 2, "ARB-SEPOLIA",
    "0x75faf114eafb1BDbe2F0316DF893fd58CE46AA4d",
    "0x8FE6B999Dc680CcFDD5Bf7EB0974218be2542DAA",
    "0xE737e5cEBEEBa77EFE34D4aa090756590b1CE275"⟩

/-- Witness for C10 at concrete failing pre-checks. -/
theorem c10_witness :
    initiateBridge envA initOracleOk "t1" [] "u1" "NOT_A_CHAIN" "ARB_SEPOLIA" "1.0" none =
      (.error "Invalid source or destination chain", [], []) ∧
    initiateBridge envNoWallet initOracleOk "t1" [] "u1" "ETH_SEPOLIA" "ARB_SEPOLIA" "1.0"
      none = (.error "No wallet found for source chain: ETH_SEPOLIA", [], []) := by
  constructor
  · exact (c10_initiateBridge_prevalidation envA initOracleOk "t1" [] "u1" "NOT_A_CHAIN"
      "ARB_SEPOLIA" "1.0" none (by intro t ht; simp at ht)).1 (Or.inl (by decide))
  · exact (c10_initiateBridge_prevalidation envNoWallet initOracleOk "t1" [] "u1"
      "ETH_SEPOLIA" "ARB_SEPOLIA" "1.0" none (by intro t ht; simp at ht)).2.1
      ethSepoliaChain arbSepoliaChain (by decide) (by decide) (by decide)

/-- Claim C6: over reachable stores, `getBridgeStatus` fails on an unknown
id; on a `waiting_attestation` transfer with a non-null burnTxHash whose
attestation check reports the first message complete, it persists the
`ready_to_mint` transition with the attestation payload and returns the
updated record; in every other case it returns the stored record and leaves
the store unchanged. -/
theorem c6_getBridgeStatus_spec :
    ∀ store : Store, Reachable store → ∀ (attResp : AttResp) (tid : String),
    (getTransferById store tid = none →
      getBridgeStatus attResp store tid = (.error "Transfer not found", store)) ∧
    (∀ t, getTransferById store tid = some t →
      (∀ m, t.status = .waiting_attestation → t.burnTxHash ≠ none →
        firstAttMessage attResp = some m → m.status = "complete" →
        getBridgeStatus attResp store tid =
          (.ok (toBridgeStatusResult (applyPatch (patchReadyToMint m.message m.attestation)
            t)),
           updateStore store tid (patchReadyToMint m.message m.attestation))) ∧
      (¬(t.status = .waiting_attestation ∧ t.burnTxHash ≠ none ∧
          checkAttestationComplete attResp = true) →
        getBridgeStatus attResp store tid = (.ok (toBridgeStatusResult t), store))) := by
  intro store hreach attResp tid
  constructor
  · intro hnone
    simp only [getBridgeStatus, hnone]
  · intro t hfind
    have hInvT : TransferInv t :=
      reachable_inv store hreach t (List.mem_of_find?_eq_some hfind)
    constructor
    · intro m hst hbn hfm hcm
      have hbt : strTruthy t.burnTxHash = true :=
        (strTruthy_iff _).mpr ⟨hbn, hInvT.2.2.2.1⟩
      obtain ⟨sc, hsc⟩ := Option.isSome_iff_exists.mp hInvT.2.2.2.2.1
      cases hca : checkAttestation attResp with
      | error e => simp [firstAttMessage, hca] at hfm
      | ok att =>
        cases att with
        | none => simp [firstAttMessage, hca] at hfm
        | some msgs =>
          cases msgs with
          | nil => simp [firstAttMessage, hca] at hfm
          | cons m0 rest =>
            have hm0 : m0 = m := by
              simpa [firstAttMessage, hca] using hfm
            subst hm0
            simp only [getBridgeStatus, hfind, hsc, hca]
            rw [if_pos ⟨hst, hbt⟩, if_pos hcm,
              getTransferById_update_self tid (patchReadyToMint m0.message m0.attestation)
                t store hfind]
    · intro hneg
      by_cases hcond : t.status = .waiting_attestation ∧ strTruthy t.burnTxHash = true
      case neg =>
        simp only [getBridgeStatus, hfind]
        rw [if_neg hcond]
      case pos =>
        have hbn : t.burnTxHash ≠ none := ((strTruthy_iff _).mp hcond.2).1
        have hnc : ¬ checkAttestationComplete attResp = true := by
          intro hc
          exact hneg ⟨hcond.1, hbn, hc⟩
        obtain ⟨sc, hsc⟩ := Option.isSome_iff_exists.mp hInvT.2.2.2.2.1
        cases hca : checkAttestation attResp with
        | error e =>
          simp only [getBridgeStatus, hfind, hsc, hca]
          rw [if_pos hcond]
        | ok att =>
          cases att with
          | none =>
            simp only [getBridgeStatus, hfind, hsc, hca]
            rw [if_pos hcond]
          | some msgs =>
            cases msgs with
            | nil =>
              simp only [getBridgeStatus, hfind, hsc, hca]
              rw [if_pos hcond]
            | cons m0 rest =>
              have hm : ¬ m0.status = "complete" := by
                intro hms
                apply hnc
                simp [checkAttestationComplete, hca, hms]
              simp only [getBridgeStatus, hfind, hsc, hca]
              rw [if_pos hcond, if_neg hm]

/-- Witness for C6: on a concrete reachable store, a completed attestation
turns the read into a persisted `ready_to_mint` transition. -/
theorem c6_witness :
    Reachable [tWAburn] ∧
    getBridgeStatus (AttResp.body [attMsgComplete]) [tWAburn] "t1" =
      (.ok (toBridgeStatusResult (applyPatch (patchReadyToMint attMsgComplete.message
        attMsgComplete.attestation) tWAburn)),
       updateStore [tWAburn] "t1" (patchReadyToMint attMsgComplete.message
         attMsgComplete.attestation)) := by
  have hr : Reachable [tWAburn] := by
    have hr0 := Reachable.initiate [] envA initOracleOk "t1" "u1" "ETH_SEPOLIA" "ARB_SEPOLIA"
      "1.0" none Reachable.empty (by intro t ht; simp at ht)
    have he : (initiateBridge envA initOracleOk "t1" [] "u1" "ETH_SEPOLIA" "ARB_SEPOLIA"
        "1.0" none).2.1 = [tWAburn] := by decide
    rw [he] at hr0
    exact hr0
  refine ⟨hr, ?_⟩
  exact ((c6_getBridgeStatus_spec [tWAburn] hr (AttResp.body [attMsgComplete]) "t1").2
    tWAburn (by decide)).1 attMsgComplete (by decide) (by decide) (by decide) (by decide)

end FluxShift
